import Mathlib

/-!
Shallow embedding of the indexing core of `substrate-archive`
(files `src/archive/src/actors/workers/aggregator.rs`,
`src/archive/src/database.rs`, `src/archive/src/actors/generators/network.rs`
and `src/src/actors/generators/defer_storage.rs`), together with theorems
settling the specification claims about it.

Conventions of the embedding:
* byte strings (`BYTEA`, hashes, SCALE-encoded blobs) are `List Nat`;
* `u32` / `u64` values are `Nat` (no arithmetic in the modelled code can
  overflow a `u32`/`u64`, none is performed on them);
* the two flume queues of the aggregator are `List`s in FIFO order
  (head = oldest element, `send` appends at the tail, `drain` yields the
  whole list front to back);
* actor sends (`do_send`, `tell_next`, `ask_next`) are recorded in the
  result of the modelled handler instead of performed;
* log statements are recorded as booleans / counters in the result.
-/

namespace Archive

/-! ## Aggregator (`src/archive/src/actors/workers/aggregator.rs`) -/

/-- `itertools::EitherOrBoth`, the element type produced by `zip_longest`. -/
inductive EitherOrBoth (α : Type) (β : Type) where
  | left : α → EitherOrBoth α β
  | right : β → EitherOrBoth α β
  | both : α → β → EitherOrBoth α β
deriving DecidableEq, Repr

/-- `Itertools::zip_longest` on two already-drained queues: pairs elements
positionally, emitting `both` while both streams have elements, then `left`
(resp. `right`) for the leftovers of the longer stream. In
`Aggregator::started` the storage drain is the left stream and the block
drain the right stream. -/
def zipLongest {α β : Type} : List α → List β → List (EitherOrBoth α β)
  | [], [] => []
  | [], b :: bs => .right b :: zipLongest [] bs
  | a :: as, [] => .left a :: zipLongest as []
  | a :: as, b :: bs => .both a b :: zipLongest as bs

/-- `BlockStorageCombo<B>(BatchBlock<B>, VecStorageWrap<B>)`: the message the
tick sends to the aggregator itself. Field `0` is the block batch, field `1`
the storage batch. -/
structure BlockStorageCombo (σ : Type) (β : Type) where
  blocks : List β
  storage : List σ
deriving DecidableEq, Repr

/-- Accumulator loop of `FromIterator<EitherOrBoth<Storage<B>, Block<B>>> for
BlockStorageCombo<B>`: iterate the zipped stream, pushing `Left` elements on
the storage vector, `Right` elements on the block vector, and `Both` on both,
in stream order. -/
def comboFromIterAux {σ β : Type} (storageAcc : List σ) (blocksAcc : List β) :
    List (EitherOrBoth σ β) → BlockStorageCombo σ β
  | [] => ⟨blocksAcc, storageAcc⟩
  | .left s :: rest => comboFromIterAux (storageAcc ++ [s]) blocksAcc rest
  | .right b :: rest => comboFromIterAux storageAcc (blocksAcc ++ [b]) rest
  | .both s b :: rest => comboFromIterAux (storageAcc ++ [s]) (blocksAcc ++ [b]) rest

/-- `BlockStorageCombo::from_iter` starting from two empty vectors. -/
def comboFromIter {σ β : Type} (l : List (EitherOrBoth σ β)) : BlockStorageCombo σ β :=
  comboFromIterAux [] [] l

/-- The tick closure installed by `Aggregator::started` via
`ctx.notify_interval`: drain the storage queue, map `Storage::from` (modelled
as the identity on the element payload), `zip_longest` with the drained block
queue, and collect into a `BlockStorageCombo`. -/
def tickDrain {σ β : Type} (storageQueue : List σ) (blockQueue : List β) :
    BlockStorageCombo σ β :=
  comboFromIter (zipLongest storageQueue blockQueue)

/-- Result of one `SyncHandler<BlockStorageCombo<B>>::handle` invocation:
which batches were `do_send`-dispatched, whether the "Waiting on node" line
was logged, and the new value of the `last_count_was_0` latch. -/
structure ComboHandleResult (σ : Type) (β : Type) where
  /-- batch sent to the metadata actor (`meta_addr.do_send(blocks)`), if any -/
  sentToMeta : Option (List β)
  /-- batch sent to the database actor (`db_addr.do_send(storage)`), if any -/
  sentToDb : Option (List σ)
  /-- whether `log::info!("Waiting on node, nothing left to index ...")` ran -/
  loggedWaiting : Bool
  /-- `last_count_was_0` after the handler returns -/
  newLatch : Bool
deriving DecidableEq, Repr

/-- `SyncHandler<BlockStorageCombo<B>>::handle`: match on the pair of batch
lengths `(b, s)`. `(0, 0)` logs the waiting line only when the latch
`last_count_was_0` is false and then sets it; every other arm dispatches the
non-empty batches and clears the latch. -/
def handleCombo {σ β : Type} (latch : Bool) (blocks : List β) (storage : List σ) :
    ComboHandleResult σ β :=
  match blocks.length, storage.length with
  | 0, 0 => ⟨none, none, !latch, true⟩
  | _ + 1, 0 => ⟨some blocks, none, false, false⟩
  | 0, _ + 1 => ⟨none, some storage, false, false⟩
  | _ + 1, _ + 1 => ⟨some blocks, some storage, false, false⟩

/-- Fold `handleCombo` over a sequence of combo messages, tracking the latch
and counting how many times the waiting line was logged. The aggregator is
constructed with `last_count_was_0: false`. -/
def runCombos {σ β : Type} (latch : Bool) :
    List (List β × List σ) → Bool × Nat
  | [] => (latch, 0)
  | (bs, ss) :: rest =>
    let r := handleCombo latch bs ss
    let t := runCombos r.newLatch rest
    (t.1, (if r.loggedWaiting then 1 else 0) + t.2)

theorem comboFromIterAux_nil_left {σ β : Type} (sAcc : List σ) (bAcc : List β)
    (bs : List β) :
    comboFromIterAux sAcc bAcc (zipLongest [] bs) = ⟨bAcc ++ bs, sAcc⟩ := by
  induction bs generalizing bAcc with
  | nil => simp [zipLongest, comboFromIterAux]
  | cons b bs ih => simp [zipLongest, comboFromIterAux, ih]

theorem comboFromIterAux_nil_right {σ β : Type} (sAcc : List σ) (bAcc : List β)
    (ss : List σ) :
    comboFromIterAux sAcc bAcc (zipLongest ss []) = ⟨bAcc, sAcc ++ ss⟩ := by
  induction ss generalizing sAcc with
  | nil => simp [zipLongest, comboFromIterAux]
  | cons s ss ih => simp [zipLongest, comboFromIterAux, ih]

theorem comboFromIterAux_zipLongest {σ β : Type} (ss : List σ) (bs : List β)
    (sAcc : List σ) (bAcc : List β) :
    comboFromIterAux sAcc bAcc (zipLongest ss bs) = ⟨bAcc ++ bs, sAcc ++ ss⟩ := by
  induction ss generalizing bs sAcc bAcc with
  | nil => simpa using comboFromIterAux_nil_left sAcc bAcc bs
  | cons s ss ih =>
    cases bs with
    | nil => simpa using comboFromIterAux_nil_right sAcc bAcc (s :: ss)
    | cons b bs => simp [zipLongest, comboFromIterAux, ih]

/-- C1. The aggregator's tick drain is complete and order-preserving: for any
contents of the storage queue and the block queue at tick time, the
`BlockStorageCombo` built by the tick closure has exactly the drained storage
queue as its storage batch and exactly the drained block queue as its block
batch — every element present, none lost, none duplicated, each stream's FIFO
order preserved. -/
theorem aggregator_tick_drain_complete {σ β : Type}
    (storageQueue : List σ) (blockQueue : List β) :
    (tickDrain storageQueue blockQueue).storage = storageQueue ∧
    (tickDrain storageQueue blockQueue).blocks = blockQueue := by
  unfold tickDrain comboFromIter
  rw [comboFromIterAux_zipLongest]
  exact ⟨rfl, rfl⟩

/-- C2. The `Combo` handler follows the exact four-case dispatch table of the
`match (b, s)` in `SyncHandler<BlockStorageCombo<B>>::handle`: with two empty
batches it sends nothing and logs the waiting line exactly when the latch is
unset (setting it); with blocks only it `do_send`s the block batch to the
metadata actor; with storage only it `do_send`s the storage batch to the
database actor; with both it sends both, and every non-empty case clears the
latch. -/
theorem combo_dispatch_table {σ β : Type} (latch : Bool)
    (b : β) (s : σ) (bs : List β) (ss : List σ) :
    handleCombo latch ([] : List β) ([] : List σ) = ⟨none, none, !latch, true⟩ ∧
    handleCombo latch (b :: bs) ([] : List σ) = ⟨some (b :: bs), none, false, false⟩ ∧
    handleCombo latch ([] : List β) (s :: ss) = ⟨none, some (s :: ss), false, false⟩ ∧
    handleCombo latch (b :: bs) (s :: ss) = ⟨some (b :: bs), some (s :: ss), false, false⟩ := by
  refine ⟨rfl, ?_, ?_, ?_⟩ <;> simp [handleCombo]

theorem handleCombo_nonempty {σ β : Type} (latch : Bool) (bs : List β) (ss : List σ)
    (h : bs ≠ [] ∨ ss ≠ []) :
    (handleCombo latch bs ss).loggedWaiting = false ∧
    (handleCombo latch bs ss).newLatch = false := by
  cases bs with
  | nil =>
    cases ss with
    | nil => simp at h
    | cons s ss => simp [handleCombo]
  | cons b bs =>
    cases ss with
    | nil => simp [handleCombo]
    | cons s ss => simp [handleCombo]

theorem runCombos_empties_latched {σ β : Type} (k : Nat) :
    runCombos (σ := σ) (β := β) true (List.replicate k ([], [])) = (true, 0) := by
  induction k with
  | zero => rfl
  | succ k ih => simp [List.replicate, runCombos, handleCombo, ih]

theorem runCombos_append {σ β : Type} (latch : Bool)
    (l₁ l₂ : List (List β × List σ)) :
    runCombos latch (l₁ ++ l₂) =
      ((runCombos (runCombos latch l₁).1 l₂).1,
       (runCombos latch l₁).2 + (runCombos (runCombos latch l₁).1 l₂).2) := by
  induction l₁ generalizing latch with
  | nil => simp [runCombos]
  | cons p l₁ ih =>
    obtain ⟨bs, ss⟩ := p
    simp [runCombos, ih]
    omega

theorem runCombos_empties_unlatched {σ β : Type} (n : Nat) (hn : 0 < n) :
    runCombos (σ := σ) (β := β) false (List.replicate n ([], [])) = (true, 1) := by
  obtain ⟨k, rfl⟩ : ∃ k, n = k + 1 := ⟨n - 1, by omega⟩
  simp [List.replicate, runCombos, handleCombo, runCombos_empties_latched]

/-- C4. The empty-tick latch suppresses repeats: starting from the latch value
`false` the aggregator is constructed with, a run of `n ≥ 1` consecutive
`(0, 0)` combos logs the waiting line exactly once and leaves the latch set;
any combo with at least one block or storage item clears the latch; and after
such a reset a further run of `m ≥ 1` empty combos logs the line again
(two log lines in total over the whole sequence). -/
theorem empty_tick_latch {σ β : Type} (n m : Nat) (hn : 0 < n) (hm : 0 < m)
    (bs : List β) (ss : List σ) (hne : bs ≠ [] ∨ ss ≠ []) :
    runCombos false (List.replicate n (([] : List β), ([] : List σ))) = (true, 1) ∧
    (handleCombo true bs ss).newLatch = false ∧
    runCombos false
      (List.replicate n ([], []) ++ (bs, ss) :: List.replicate m ([], [])) = (true, 2) := by
  refine ⟨runCombos_empties_unlatched n hn, (handleCombo_nonempty true bs ss hne).2, ?_⟩
  rw [runCombos_append, runCombos_empties_unlatched n hn]
  have hlog := handleCombo_nonempty (σ := σ) (β := β) true bs ss hne
  simp only [runCombos, hlog.1, hlog.2, runCombos_empties_unlatched m hm]
  norm_num

/-- Closed instance of `empty_tick_latch` at the spec's scenario (five empty
ticks, then one combo carrying a single block, then five more empty ticks). -/
theorem empty_tick_latch_witness :
    runCombos false (List.replicate 5 (([] : List Nat), ([] : List Nat))) = (true, 1) ∧
    (handleCombo (σ := Nat) true [0] []).newLatch = false ∧
    runCombos false
      (List.replicate 5 (([] : List Nat), ([] : List Nat)) ++
        ([0], []) :: List.replicate 5 ([], [])) = (true, 2) :=
  empty_tick_latch 5 5 (by decide) (by decide) [0] [] (Or.inl (by decide))

/-! ## Database sink (`src/archive/src/database.rs`)

Tables are modelled as lists of rows in insertion order. The semantics of the
`ON CONFLICT` clauses follows the statements in the source and the schema:
`blocks` has `hash` as primary key, `metadata` has `version` as primary key,
and `storage` has `UNIQUE(hash, key, md5(storage))`. `md5` is modelled as an
injective digest, so two storage values collide on `md5` exactly when they
are equal. An insert function returns the new table together with the
rows-affected count the driver's `execute` reports (`0` when `ON CONFLICT DO
NOTHING` skipped the row, `1` when a row was inserted or updated). -/

/-- One row of the `blocks` table, as bound by `Insert for Block<B>`. -/
structure BlockRow where
  parent_hash : List Nat
  hash : List Nat
  block_num : Nat
  state_root : List Nat
  extrinsics_root : List Nat
  digest : List Nat
  ext : List Nat
  spec : Nat
deriving DecidableEq, Repr

/-- One row of the `storage` table, as bound by `Insert for StorageModel<B>`. -/
structure StorageRow where
  block_num : Nat
  hash : List Nat
  is_full : Bool
  key : List Nat
  /-- the `storage` column; `None` models a SQL NULL value -/
  value : Option (List Nat)
deriving DecidableEq, Repr

/-- One row of the `metadata` table, as bound by `Insert for Metadata`. -/
structure MetadataRow where
  version : Nat
  meta : List Nat
deriving DecidableEq, Repr

/-- `INSERT INTO blocks ... ON CONFLICT DO NOTHING` for a single row:
conflict on the `hash` primary key skips the row (0 rows affected);
otherwise the row is appended (1 row affected). -/
def insertBlockRow (tbl : List BlockRow) (r : BlockRow) : List BlockRow × Nat :=
  if tbl.any (fun x => x.hash == r.hash) then (tbl, 0) else (tbl ++ [r], 1)

/-- `Insert for Block<B>`: executes the single-row statement and returns the
driver's rows-affected count. -/
def blockInsert (tbl : List BlockRow) (r : BlockRow) : List BlockRow × Nat :=
  insertBlockRow tbl r

/-- `Insert for BatchBlock<B>`: the batch builder binds every block into one
multi-row `INSERT ... ON CONFLICT DO NOTHING`, executes it, discards the
rows-affected count and returns `Ok(0)`. -/
def batchBlockInsert (tbl : List BlockRow) (rs : List BlockRow) : List BlockRow × Nat :=
  let executed := rs.foldl
    (fun acc r =>
      let step := insertBlockRow acc.1 r
      (step.1, acc.2 + step.2))
    (tbl, 0)
  (executed.1, 0)

/-- The conflict target `(hash, key, md5(storage))` of the `storage` table,
with `md5` modelled as injective: two rows conflict exactly when their
`hash`, `key` and `storage` columns agree. -/
def storageConflict (x r : StorageRow) : Bool :=
  x.hash == r.hash && x.key == r.key && x.value == r.value

/-- `DO UPDATE SET hash = EXCLUDED.hash, key = EXCLUDED.key, storage =
EXCLUDED.storage, is_full = EXCLUDED.is_full`: the conflicting stored row
takes the excluded row's `hash`, `key`, `storage` and `is_full` columns and
keeps its own `block_num` (which the SET list does not mention). -/
def storageUpdate (x r : StorageRow) : StorageRow :=
  { x with hash := r.hash, key := r.key, value := r.value, is_full := r.is_full }

/-- `INSERT INTO storage ... ON CONFLICT (hash, key, md5(storage)) DO UPDATE`
for a single row: on conflict the stored row is updated in place (1 row
affected), otherwise the row is appended (1 row affected). -/
def insertStorageRow (tbl : List StorageRow) (r : StorageRow) : List StorageRow × Nat :=
  if tbl.any (fun x => storageConflict x r) then
    (tbl.map (fun x => if storageConflict x r then storageUpdate x r else x), 1)
  else (tbl ++ [r], 1)

/-- `Insert for StorageModel<B>`: executes the single-row statement and
returns the driver's rows-affected count. -/
def storageInsert (tbl : List StorageRow) (r : StorageRow) : List StorageRow × Nat :=
  insertStorageRow tbl r

/-- `Insert for Vec<StorageModel<B>>`: the batch builder binds every record
into one multi-row statement with the same `ON CONFLICT ... DO UPDATE`
clause, executes it, discards the rows-affected count and returns `Ok(0)`. -/
def vecStorageInsert (tbl : List StorageRow) (rs : List StorageRow) : List StorageRow × Nat :=
  let executed := rs.foldl
    (fun acc r =>
      let step := insertStorageRow acc.1 r
      (step.1, acc.2 + step.2))
    (tbl, 0)
  (executed.1, 0)

/-- `INSERT INTO metadata (version, meta) VALUES($1, $2) ON CONFLICT DO
NOTHING`: conflict on the `version` primary key skips the row. -/
def insertMetadataRow (tbl : List MetadataRow) (r : MetadataRow) : List MetadataRow × Nat :=
  if tbl.any (fun x => x.version == r.version) then (tbl, 0) else (tbl ++ [r], 1)

/-- `Insert for Metadata`: executes the single-row statement and returns the
driver's rows-affected count. -/
def metadataInsert (tbl : List MetadataRow) (r : MetadataRow) : List MetadataRow × Nat :=
  insertMetadataRow tbl r

theorem insertBlockRow_any_mono (tbl : List BlockRow) (r : BlockRow) (p : BlockRow → Bool)
    (h : tbl.any p = true) : (insertBlockRow tbl r).1.any p = true := by
  unfold insertBlockRow
  by_cases hc : tbl.any (fun x => x.hash == r.hash) = true <;>
    simp [hc, List.any_append, h]

theorem insertBlockRow_hash_present (tbl : List BlockRow) (r : BlockRow) :
    (insertBlockRow tbl r).1.any (fun x => x.hash == r.hash) = true := by
  unfold insertBlockRow
  by_cases hc : tbl.any (fun x => x.hash == r.hash) = true <;>
    simp [hc, List.any_append]

theorem insertBlockRow_idem (tbl : List BlockRow) (r : BlockRow) :
    (insertBlockRow (insertBlockRow tbl r).1 r).1 = (insertBlockRow tbl r).1 := by
  have h := insertBlockRow_hash_present tbl r
  rw [insertBlockRow, h]
  rfl

/-- Table component of the `BatchBlock` fold, without the rows-affected
bookkeeping. -/
def foldBlockTable (tbl : List BlockRow) (rs : List BlockRow) : List BlockRow :=
  rs.foldl (fun t r => (insertBlockRow t r).1) tbl

theorem batchBlockInsert_fst (tbl : List BlockRow) (rs : List BlockRow) :
    (batchBlockInsert tbl rs).1 = foldBlockTable tbl rs := by
  suffices h : ∀ (rs : List BlockRow) (tbl : List BlockRow) (n : Nat),
      (rs.foldl
        (fun acc r =>
          let step := insertBlockRow acc.1 r
          (step.1, acc.2 + step.2))
        (tbl, n)).1 = foldBlockTable tbl rs by
    simpa [batchBlockInsert] using h rs tbl 0
  intro rs
  induction rs with
  | nil => intro tbl n; rfl
  | cons a as ih => intro tbl n; simpa [List.foldl, foldBlockTable] using ih _ _

theorem foldBlockTable_any_mono (rs : List BlockRow) (tbl : List BlockRow)
    (p : BlockRow → Bool) (h : tbl.any p = true) :
    (foldBlockTable tbl rs).any p = true := by
  induction rs generalizing tbl with
  | nil => exact h
  | cons a as ih => exact ih _ (insertBlockRow_any_mono tbl a p h)

theorem foldBlockTable_mem_present (rs : List BlockRow) (tbl : List BlockRow)
    (r : BlockRow) :
    r ∈ rs → (foldBlockTable tbl rs).any (fun x => x.hash == r.hash) = true := by
  induction rs generalizing tbl with
  | nil => intro hmem; cases hmem
  | cons a as ih =>
    intro hmem
    rcases List.mem_cons.mp hmem with rfl | hmem
    · exact foldBlockTable_any_mono as _ _ (insertBlockRow_hash_present tbl r)
    · exact ih _ hmem

theorem foldBlockTable_noop (rs : List BlockRow) (tbl : List BlockRow)
    (h : ∀ r ∈ rs, tbl.any (fun x => x.hash == r.hash) = true) :
    foldBlockTable tbl rs = tbl := by
  induction rs with
  | nil => rfl
  | cons a as ih =>
    have ha : insertBlockRow tbl a = (tbl, 0) := by
      rw [insertBlockRow, h a (List.mem_cons_self a as)]
      rfl
    calc foldBlockTable tbl (a :: as)
        = foldBlockTable (insertBlockRow tbl a).1 as := rfl
      _ = foldBlockTable tbl as := by rw [ha]
      _ = tbl := ih fun r hr => h r (List.mem_cons_of_mem a hr)

theorem insertMetadataRow_idem (tbl : List MetadataRow) (r : MetadataRow) :
    (insertMetadataRow (insertMetadataRow tbl r).1 r).1 = (insertMetadataRow tbl r).1 := by
  have h : (insertMetadataRow tbl r).1.any (fun x => x.version == r.version) = true := by
    unfold insertMetadataRow
    by_cases hc : tbl.any (fun x => x.version == r.version) = true <;>
      simp [hc, List.any_append]
  rw [insertMetadataRow, h]
  rfl

theorem storageConflict_self (r : StorageRow) : storageConflict r r = true := by
  simp [storageConflict]

theorem storageConflict_update (x r : StorageRow) :
    storageConflict (storageUpdate x r) r = true := by
  simp [storageConflict, storageUpdate]

theorem storageUpdate_update (x r : StorageRow) :
    storageUpdate (storageUpdate x r) r = storageUpdate x r := rfl

theorem storageUpdate_self (r : StorageRow) : storageUpdate r r = r := rfl

theorem storage_map_update_idem (tbl : List StorageRow) (r : StorageRow) :
    ((tbl.map (fun x => if storageConflict x r then storageUpdate x r else x)).map
      (fun x => if storageConflict x r then storageUpdate x r else x)) =
    tbl.map (fun x => if storageConflict x r then storageUpdate x r else x) := by
  rw [List.map_map]
  refine List.map_congr_left fun a _ => ?_
  by_cases hca : storageConflict a r = true
  · simp [Function.comp, hca, storageConflict_update, storageUpdate_update]
  · simp [Function.comp, hca]

theorem insertStorageRow_idem (tbl : List StorageRow) (r : StorageRow) :
    (insertStorageRow (insertStorageRow tbl r).1 r).1 = (insertStorageRow tbl r).1 := by
  by_cases h : tbl.any (fun x => storageConflict x r) = true
  · obtain ⟨x, hx, hcx⟩ := List.any_eq_true.mp h
    have h1 : insertStorageRow tbl r =
        (tbl.map (fun x => if storageConflict x r then storageUpdate x r else x), 1) := by
      rw [insertStorageRow, h]
      rfl
    have h2 : (tbl.map (fun x => if storageConflict x r then storageUpdate x r else x)).any
        (fun x => storageConflict x r) = true := by
      refine List.any_eq_true.mpr ⟨storageUpdate x r, ?_, storageConflict_update x r⟩
      exact List.mem_map.mpr ⟨x, hx, by simp [hcx]⟩
    rw [h1, insertStorageRow, h2]
    simpa using storage_map_update_idem tbl r
  · have hall : ∀ x ∈ tbl, storageConflict x r = false := by
      intro x hx
      by_contra hc
      exact h (List.any_eq_true.mpr ⟨x, hx, by simpa using hc⟩)
    have h1 : insertStorageRow tbl r = (tbl ++ [r], 1) := by
      rw [insertStorageRow, if_neg h]
    have h2 : (tbl ++ [r]).any (fun x => storageConflict x r) = true := by
      simp [List.any_append, storageConflict_self]
    have h3 : tbl.map (fun x => if storageConflict x r then storageUpdate x r else x) = tbl := by
      have hmap : tbl.map (fun x => if storageConflict x r then storageUpdate x r else x)
          = tbl.map id := List.map_congr_left fun a ha => by simp [hall a ha]
      simpa using hmap
    rw [h1, insertStorageRow, h2]
    simp [List.map_append, h3, storageConflict_self, storageUpdate_self]

/-- C5. Every insert path named by the spec is idempotent under replay:
inserting the same `Block`, `BatchBlock` or `Metadata` item twice leaves the
table equal to inserting it once (`ON CONFLICT DO NOTHING` on the `hash`
resp. `version` primary key), and replaying a `StorageModel` is a no-op
because the second insert hits the `(hash, key, md5(storage))` conflict
target and the `DO UPDATE` clause rewrites the stored row to the very same
column values. -/
theorem insert_paths_idempotent (btbl : List BlockRow) (r : BlockRow) (rs : List BlockRow)
    (mtbl : List MetadataRow) (m : MetadataRow) (stbl : List StorageRow) (s : StorageRow) :
    (blockInsert (blockInsert btbl r).1 r).1 = (blockInsert btbl r).1 ∧
    (batchBlockInsert (batchBlockInsert btbl rs).1 rs).1 = (batchBlockInsert btbl rs).1 ∧
    (metadataInsert (metadataInsert mtbl m).1 m).1 = (metadataInsert mtbl m).1 ∧
    (storageInsert (storageInsert stbl s).1 s).1 = (storageInsert stbl s).1 := by
  refine ⟨insertBlockRow_idem btbl r, ?_, insertMetadataRow_idem mtbl m,
    insertStorageRow_idem stbl s⟩
  rw [batchBlockInsert_fst, batchBlockInsert_fst]
  exact foldBlockTable_noop rs _ fun x hx => foldBlockTable_mem_present rs btbl x hx

/-! ## Deferred-storage worker (`src/src/actors/generators/defer_storage.rs`) -/

/-- A deferred `Storage<T>` record as the worker observes it: the worker only
reads `block_num()` and otherwise treats the record as an opaque value, kept
here as `payload` so distinct records with the same block number stay
distinguishable. -/
structure StorageEntry where
  block_num : Nat
  payload : Nat
deriving DecidableEq, Repr

/-- Modelled from the spec: `queries::missing_blocks_min_max` lives in the
repository's `queries` module, which is not under `src/`; the spec defines it
as `SELECT n FROM generate_series(lo, hi) AS n WHERE n NOT IN (SELECT
block_num FROM blocks)`. `blocks` is the list of block numbers present in the
`blocks` table; the series `lo..=hi` is empty when `hi < lo`. -/
def missing_blocks_min_max (blocks : List Nat) (lo hi : Nat) : List Nat :=
  (List.range' lo (hi + 1 - lo)).filter (fun n => !(blocks.contains n))

/-- The two slice indexings `missing[0]` and `missing[missing.len() - 1]` in
`entry`, performed on the sorted block-number list as checked accesses:
`none` models the index-out-of-bounds panic the Rust code hits on an empty
working set. -/
def entryBounds (nums : List Nat) : Option (Nat × Nat) :=
  match nums[0]?, nums[nums.length - 1]? with
  | some lo, some hi => some (lo, hi)
  | _, _ => none

/-- The `storage.retain(..)` call of `entry`: walk the working set front to
back, moving each record whose `block_num` is not in `missing` to the `ready`
vector (and dropping it from the set), keeping every other record. Returns
`(ready, kept)`. -/
def retainPartition (missing : List Nat) (ready kept : List StorageEntry) :
    List StorageEntry → List StorageEntry × List StorageEntry
  | [] => (ready, kept)
  | s :: rest =>
    if !(missing.contains s.block_num) then
      retainPartition missing (ready ++ [s]) kept rest
    else
      retainPartition missing ready (kept ++ [s]) rest

/-- `defer_storage::entry`: collect the block numbers of the working set,
sort them, take `missing[0]` and `missing[missing.len() - 1]` as the range
bounds, run the missing-blocks query on that range, and partition the working
set with `retain`, sending the `ready` vector to the database workers.
Returns `(ready, kept)`, or `none` for the out-of-bounds panic on an empty
set. -/
def entryStep (blocks : List Nat) (storage : List StorageEntry) :
    Option (List StorageEntry × List StorageEntry) :=
  match entryBounds ((storage.map (·.block_num)).mergeSort (· ≤ ·)) with
  | some (lo, hi) =>
    some (retainPartition (missing_blocks_min_max blocks lo hi) [] [] storage)
  | none => none

/-- One pass of the `loop` in `defer_storage::actor`: run `entry` (which
sends the ready batch and shrinks the working set), sleep five seconds (pure
time, not modelled), then break out of the loop exactly when the remaining
working set is empty. Returns the batch handed to the database sink, the new
working set, and whether the loop continues. -/
def actorIteration (blocks : List Nat) (storage : List StorageEntry) :
    Option (List StorageEntry × List StorageEntry × Bool) :=
  match entryStep blocks storage with
  | some (ready, kept) => some (ready, kept, kept.length > 0)
  | none => none

theorem retainPartition_eq_filter (missing : List Nat) (l : List StorageEntry)
    (ready kept : List StorageEntry) :
    retainPartition missing ready kept l =
      (ready ++ l.filter (fun s => !(missing.contains s.block_num)),
       kept ++ l.filter (fun s => missing.contains s.block_num)) := by
  induction l generalizing ready kept with
  | nil => simp [retainPartition]
  | cons s rest ih =>
    by_cases hc : s.block_num ∈ missing
    · simp [retainPartition, hc, ih]
    · simp [retainPartition, hc, ih]

theorem entryBounds_sorted (l : List Nat) (h : l ≠ []) :
    ∃ lo hi, entryBounds (l.mergeSort (· ≤ ·)) = some (lo, hi) ∧
      lo ∈ l ∧ hi ∈ l ∧ ∀ n ∈ l, lo ≤ n ∧ n ≤ hi := by
  have hperm : (l.mergeSort (· ≤ ·)).Perm l := List.mergeSort_perm l _
  have hne : l.mergeSort (· ≤ ·) ≠ [] := by
    intro h0
    exact h (List.eq_nil_of_length_eq_zero (by rw [← hperm.length_eq, h0]; rfl))
  have hpos : 0 < (l.mergeSort (· ≤ ·)).length := List.length_pos.mpr hne
  have hsorted : List.Pairwise (· ≤ ·) (l.mergeSort (· ≤ ·)) := by
    have hp := @List.sorted_mergeSort Nat (fun a b => decide (a ≤ b))
      (fun a b c hab hbc => by
        simp only [decide_eq_true_eq] at *
        omega)
      (fun a b => by simpa using Nat.le_total a b) l
    exact hp.imp fun hab => by simpa using hab
  refine ⟨(l.mergeSort (· ≤ ·)).head hne, (l.mergeSort (· ≤ ·)).getLast hne, ?_,
    hperm.mem_iff.mp (List.head_mem hne), hperm.mem_iff.mp (List.getLast_mem hne), ?_⟩
  · have h0 : (l.mergeSort (· ≤ ·))[0]? = some ((l.mergeSort (· ≤ ·)).head hne) := by
      rw [List.getElem?_eq_getElem hpos, List.getElem_zero]
    have hl : (l.mergeSort (· ≤ ·))[(l.mergeSort (· ≤ ·)).length - 1]? =
        some ((l.mergeSort (· ≤ ·)).getLast hne) := by
      rw [List.getElem?_eq_getElem (by omega), ← List.getLast_eq_getElem]
    rw [entryBounds, h0, hl]
  · intro n hn
    obtain ⟨k, hk, hkn⟩ := List.mem_iff_getElem.mp (hperm.mem_iff.mpr hn)
    constructor
    · rcases Nat.eq_zero_or_pos k with rfl | hkpos
      · rw [← hkn, List.getElem_zero]
      · have hle := (List.pairwise_iff_getElem.mp hsorted) 0 k hpos hk hkpos
        rw [← hkn, ← List.getElem_zero hpos]
        exact hle
    · by_cases hkend : k = (l.mergeSort (· ≤ ·)).length - 1
      · subst hkend
        rw [← hkn, List.getLast_eq_getElem]
      · have hlt : k < (l.mergeSort (· ≤ ·)).length - 1 := by omega
        have hle := (List.pairwise_iff_getElem.mp hsorted) k
          ((l.mergeSort (· ≤ ·)).length - 1) hk (by omega) hlt
        rw [← hkn, List.getLast_eq_getElem]
        exact hle

theorem map_block_num_ne_nil (storage : List StorageEntry) (h : storage ≠ []) :
    storage.map (·.block_num) ≠ [] := by
  intro hc
  exact h (by simpa using hc)

/-- C3. One pass of the deferred-storage worker follows the five spec steps on
a non-empty working set: the range bounds are the minimum and maximum of the
working set's block numbers; the missing list is the generate-series
anti-join over that range; the `retain` partition moves exactly the records
whose `block_num` is not in the missing list to `ready` (the rest remain, in
order); the `ready` vector is the batch handed to the database sink; and the
loop continues exactly when the remaining working set is non-empty. -/
theorem defer_storage_loop_steps (blocks : List Nat) (storage : List StorageEntry)
    (h : storage ≠ []) :
    ∃ lo hi,
      (lo ∈ storage.map (·.block_num) ∧ hi ∈ storage.map (·.block_num) ∧
        ∀ n ∈ storage.map (·.block_num), lo ≤ n ∧ n ≤ hi) ∧
      missing_blocks_min_max blocks lo hi =
        (List.range' lo (hi + 1 - lo)).filter (fun n => !(blocks.contains n)) ∧
      actorIteration blocks storage =
        some (storage.filter
                (fun s => !((missing_blocks_min_max blocks lo hi).contains s.block_num)),
              storage.filter
                (fun s => (missing_blocks_min_max blocks lo hi).contains s.block_num),
              decide ((storage.filter
                (fun s => (missing_blocks_min_max blocks lo hi).contains s.block_num)).length > 0)) := by
  obtain ⟨lo, hi, hb, hlom, hhim, hbounds⟩ :=
    entryBounds_sorted (storage.map (·.block_num)) (map_block_num_ne_nil storage h)
  have hstep : entryStep blocks storage =
      some (storage.filter
              (fun s => !((missing_blocks_min_max blocks lo hi).contains s.block_num)),
            storage.filter
              (fun s => (missing_blocks_min_max blocks lo hi).contains s.block_num)) := by
    unfold entryStep
    rw [hb]
    show some (retainPartition (missing_blocks_min_max blocks lo hi) [] [] storage) = _
    rw [retainPartition_eq_filter]
    simp
  refine ⟨lo, hi, ⟨hlom, hhim, hbounds⟩, rfl, ?_⟩
  unfold actorIteration
  rw [hstep]

/-- Closed instance of `defer_storage_loop_steps`: working set
`{(block 1), (block 2), (block 3)}` with only block 2 present in the
database, so the missing list is `[1, 3]`, record 2 is sent as the ready
batch, records 1 and 3 remain and the loop continues. -/
theorem defer_storage_loop_steps_witness :
    (([⟨1, 0⟩, ⟨2, 1⟩, ⟨3, 2⟩] : List StorageEntry) ≠ []) ∧
    ∃ lo hi,
      (lo ∈ ([⟨1, 0⟩, ⟨2, 1⟩, ⟨3, 2⟩] : List StorageEntry).map (·.block_num) ∧
        hi ∈ ([⟨1, 0⟩, ⟨2, 1⟩, ⟨3, 2⟩] : List StorageEntry).map (·.block_num) ∧
        ∀ n ∈ ([⟨1, 0⟩, ⟨2, 1⟩, ⟨3, 2⟩] : List StorageEntry).map (·.block_num),
          lo ≤ n ∧ n ≤ hi) ∧
      missing_blocks_min_max [2] lo hi =
        (List.range' lo (hi + 1 - lo)).filter (fun n => !(([2] : List Nat).contains n)) ∧
      actorIteration [2] [⟨1, 0⟩, ⟨2, 1⟩, ⟨3, 2⟩] =
        some (([⟨1, 0⟩, ⟨2, 1⟩, ⟨3, 2⟩] : List StorageEntry).filter
                (fun s => !((missing_blocks_min_max [2] lo hi).contains s.block_num)),
              ([⟨1, 0⟩, ⟨2, 1⟩, ⟨3, 2⟩] : List StorageEntry).filter
                (fun s => (missing_blocks_min_max [2] lo hi).contains s.block_num),
              decide ((([⟨1, 0⟩, ⟨2, 1⟩, ⟨3, 2⟩] : List StorageEntry).filter
                (fun s => (missing_blocks_min_max [2] lo hi).contains s.block_num)).length > 0)) :=
  ⟨by decide, defer_storage_loop_steps [2] [⟨1, 0⟩, ⟨2, 1⟩, ⟨3, 2⟩] (by decide)⟩

/-- C9. `entry` requires a non-empty working set: the bounds come from
indexing the first and last positions of the collected block-number list, so
on an empty working set the access is out of bounds (a panic, modelled as
`none`), and on a non-empty working set both accesses are in bounds and —
after sorting — return the minimum and the maximum block number. -/
theorem defer_storage_bounds_nonempty (blocks : List Nat)
    (storage : List StorageEntry) (h : storage ≠ []) :
    entryStep blocks [] = none ∧
    ∃ lo hi,
      entryBounds ((storage.map (·.block_num)).mergeSort (· ≤ ·)) = some (lo, hi) ∧
      lo ∈ storage.map (·.block_num) ∧ hi ∈ storage.map (·.block_num) ∧
      ∀ n ∈ storage.map (·.block_num), lo ≤ n ∧ n ≤ hi := by
  constructor
  · unfold entryStep
    rw [(by simp : ((([] : List StorageEntry).map (·.block_num)).mergeSort (· ≤ ·))
      = ([] : List Nat))]
    rfl
  · exact entryBounds_sorted _ (map_block_num_ne_nil storage h)

/-- Closed instance of `defer_storage_bounds_nonempty` on the working set
`{(block 5), (block 3)}`: the empty set panics, the non-empty set yields the
bounds `(3, 5)`. -/
theorem defer_storage_bounds_nonempty_witness :
    (([⟨5, 0⟩, ⟨3, 1⟩] : List StorageEntry) ≠ []) ∧
    (entryStep [7] [] = none ∧
    ∃ lo hi,
      entryBounds ((([⟨5, 0⟩, ⟨3, 1⟩] : List StorageEntry).map (·.block_num)).mergeSort
        (· ≤ ·)) = some (lo, hi) ∧
      lo ∈ ([⟨5, 0⟩, ⟨3, 1⟩] : List StorageEntry).map (·.block_num) ∧
      hi ∈ ([⟨5, 0⟩, ⟨3, 1⟩] : List StorageEntry).map (·.block_num) ∧
      ∀ n ∈ ([⟨5, 0⟩, ⟨3, 1⟩] : List StorageEntry).map (·.block_num),
        lo ≤ n ∧ n ≤ hi) :=
  ⟨by decide, defer_storage_bounds_nonempty [7] [⟨5, 0⟩, ⟨3, 1⟩] (by decide)⟩

/-! ## Finalized-head source (`src/archive/src/actors/generators/network.rs`) -/

/-- A message observed on the finalized-head source's bastion inbox: either
the `Broadcast::Shutdown` broadcast or some other, unrecognized message kind
(the catch-all `e: _` arm of the `msg!` macro), carrying an opaque payload. -/
inductive InboxMsg where
  | shutdownMsg
  | unknown (payload : Nat)
deriving DecidableEq, Repr

/-- Result of `handle_shutdown`: whether the subscription loop breaks
(`true` only for `Broadcast::Shutdown`, which drops — and thereby
unsubscribes — the subscription) and whether the "Received unknown message"
warning was logged. -/
structure ShutdownCheck where
  breakLoop : Bool
  warnedUnknown : Bool
deriving DecidableEq, Repr

/-- `network::handle_shutdown`: non-blocking `try_recv` of the inbox. No
message or a `Shutdown` broadcast log nothing; `Shutdown` returns `true`
(break the loop); any other message kind hits the `e: _` arm, logs a warning
and returns `false` (the loop continues). -/
def handle_shutdown : Option InboxMsg → ShutdownCheck
  | none => ⟨false, false⟩
  | some .shutdownMsg => ⟨true, false⟩
  | some (.unknown _) => ⟨false, true⟩

/-- Outcome of one pass of the subscription loop in `network::entry`. -/
inductive LoopStep (B : Type) where
  /-- `handle_shutdown` returned `true`: break out of the loop -/
  | stopped
  /-- the block store returned a body: `sched.tell_next("meta", b)` -/
  | dispatched (b : B)
  /-- the block store returned nothing: `log::warn!("Block does not exist!")`
  and continue -/
  | warnedMissing
deriving DecidableEq, Repr

/-- One pass of the `loop` in `network::entry`: first poll the inbox through
`handle_shutdown` and break if it asks to; otherwise await the next head and
look its number up in the read-only block store, handing a present block to
the round-robin scheduler and logging a warning for an absent one. `lookup`
is the block store's `client.block(BlockId::Number(head))` and `head` the
number carried by the subscription notification. -/
def entryLoopStep {B : Type} (lookup : Nat → Option B) (inbox : Option InboxMsg)
    (head : Nat) : LoopStep B :=
  if (handle_shutdown inbox).breakLoop then .stopped
  else
    match lookup head with
    | some b => .dispatched b
    | none => .warnedMissing

/-- C7 counterexample. The claim says an unrecognized inbox message is fatal
(the actor does not continue its subscription loop), but `handle_shutdown`
returns `false` for the unknown-message arm, so the loop continues: at the
concrete unknown message with payload `0` and a block store that has block
`0`, the loop step is a normal dispatch, not a stop. -/
theorem unknown_message_not_fatal_cex :
    (handle_shutdown (some (InboxMsg.unknown 0))).breakLoop = false ∧
    entryLoopStep (fun _ => some 0) (some (InboxMsg.unknown 0)) 0 ≠
      (LoopStep.stopped : LoopStep Nat) := by
  refine ⟨rfl, ?_⟩
  decide

/-- C7 (amended). On an unrecognized message kind the finalized-head source
logs the "Received unknown message" warning and continues its subscription
loop; only a `Shutdown` broadcast breaks the loop (and an empty inbox does
nothing). -/
theorem unknown_message_warns_and_continues (payload : Nat) :
    handle_shutdown (some (InboxMsg.unknown payload)) = ⟨false, true⟩ ∧
    handle_shutdown (some InboxMsg.shutdownMsg) = ⟨true, false⟩ ∧
    handle_shutdown none = ⟨false, false⟩ :=
  ⟨rfl, rfl, rfl⟩

/-- C8. For every finalized-head notification processed while no shutdown was
broadcast, a successful block-store lookup hands the block to the round-robin
scheduler and a failed lookup logs a warning; in both cases the subscription
loop is not terminated. -/
theorem missing_block_nonfatal {B : Type} (lookup : Nat → Option B)
    (inbox : Option InboxMsg) (head : Nat)
    (h : inbox ≠ some InboxMsg.shutdownMsg) :
    (∀ b, lookup head = some b → entryLoopStep lookup inbox head = .dispatched b) ∧
    (lookup head = none → entryLoopStep lookup inbox head = .warnedMissing) ∧
    entryLoopStep lookup inbox head ≠ .stopped := by
  have hbreak : (handle_shutdown inbox).breakLoop = false := by
    match inbox with
    | none => rfl
    | some .shutdownMsg => exact absurd rfl h
    | some (.unknown _) => rfl
  refine ⟨?_, ?_, ?_⟩
  · intro b hb
    simp [entryLoopStep, hbreak, hb]
  · intro hb
    simp [entryLoopStep, hbreak, hb]
  · intro hcontra
    rw [entryLoopStep, hbreak] at hcontra
    simp only [Bool.false_eq_true, if_false] at hcontra
    cases hl : lookup head with
    | some b => rw [hl] at hcontra; cases hcontra
    | none => rw [hl] at hcontra; cases hcontra

/-- Closed instance of `missing_block_nonfatal`: empty inbox, head `100`,
a block store holding only block `100`; and head `101` with the same store,
which warns but does not stop. -/
theorem missing_block_nonfatal_witness :
    ((none : Option InboxMsg) ≠ some InboxMsg.shutdownMsg) ∧
    ((∀ b, (fun n => if n = 100 then some n else none) 100 = some b →
        entryLoopStep (fun n => if n = 100 then some n else none) none 100 =
          .dispatched b) ∧
      ((fun n => if n = 100 then some n else none) 100 = none →
        entryLoopStep (fun n => if n = 100 then some n else none) none 100 =
          .warnedMissing) ∧
      entryLoopStep (fun n => if n = 100 then some n else none) none 100 ≠ .stopped) :=
  ⟨by decide, missing_block_nonfatal (fun n => if n = 100 then some n else none)
    none 100 (by decide)⟩

/-! ## SQL statement text of the single-row storage insert -/

/-- The exact text of the raw string passed to `sqlx::query` by
`Insert for StorageModel<B>` in `database.rs` (whitespace included). -/
def singleStorageInsertSQL : String :=
  "\n                INSERT INTO storage (\n" ++
  "                    block_num, hash, is_full, key, storage\n" ++
  "                ) VALUES (#1, $2, $3, $4, $5)\n" ++
  "                ON CONFLICT (hash, key, md5(storage)) DO UPDATE SET\n" ++
  "                    hash = EXCLUDED.hash,\n" ++
  "                    key = EXCLUDED.key,\n" ++
  "                    storage = EXCLUDED.storage,\n" ++
  "                    is_full = EXCLUDED.is_full\n            "

/-- The Postgres wire protocol's positional parameters as the driver lexes
them: scan the statement text, and each `$` starts a parameter token whose
decimal digits follow it. The accumulator holds the digits of the token
being read. -/
def dollarScanAux : List Char → Option Nat → List Nat
  | [], none => []
  | [], some n => [n]
  | c :: rest, none =>
    if c = '$' then dollarScanAux rest (some 0) else dollarScanAux rest none
  | c :: rest, some n =>
    if c.isDigit then dollarScanAux rest (some (10 * n + (c.toNat - 48)))
    else if c = '$' then n :: dollarScanAux rest (some 0)
    else n :: dollarScanAux rest none

/-- All `$n` parameter placeholders of a statement, in order of occurrence. -/
def dollarPlaceholders (s : String) : List Nat :=
  dollarScanAux s.toList none

/-- Substring test on character lists. -/
def hasSubList (pat : List Char) : List Char → Bool
  | [] => decide (pat = [])
  | c :: rest => pat.isPrefixOf (c :: rest) || hasSubList pat rest

/-- Whether `pat` occurs as a contiguous substring of `s`. -/
def containsSub (s pat : String) : Bool := hasSubList pat.toList s.toList

/-- A value bound to a statement by a `.bind` call. -/
inductive SqlValue where
  | uint (n : Nat)
  | bytes (b : List Nat)
  | boolean (b : Bool)
  | nullableBytes (b : Option (List Nat))
deriving DecidableEq, Repr

/-- The five `.bind` calls of `Insert for StorageModel<B>`, in source order:
`block_num`, `hash`, `is_full`, `key`, `data`. -/
def singleStorageBinds (r : StorageRow) : List SqlValue :=
  [.uint r.block_num, .bytes r.hash, .boolean r.is_full, .bytes r.key,
   .nullableBytes r.value]

/-- The VALUES tuple as it appears in the statement text. -/
def hashValuesTuplePat : String := "(#1, $2, $3, $4, $5)"

/-- The placeholder the driver expects for the first bound value. -/
def dollarOnePat : String := "$1"

set_option maxRecDepth 40000 in
/-- C6. The single-row storage insert statement uses the token `#1` where the
driver expects `$1`: its VALUES tuple is literally `(#1, $2, $3, $4, $5)`,
the text contains no `$1` anywhere although five values are bound, and the
`$`-placeholders the driver can lex are exactly `$2..$5` — so the statement
is malformed for a driver numbering parameters `$1..$5`, while the remaining
four placeholders are correct. -/
theorem single_storage_placeholder_mismatch (r : StorageRow) :
    containsSub singleStorageInsertSQL hashValuesTuplePat = true ∧
    containsSub singleStorageInsertSQL dollarOnePat = false ∧
    dollarPlaceholders singleStorageInsertSQL = [2, 3, 4, 5] ∧
    (singleStorageBinds r).length = 5 :=
  ⟨by decide, by decide, by decide, rfl⟩

/-- C10. The batched insert paths (`Vec<StorageModel<B>>` and
`BatchBlock<B>`) end in `Ok(0)`: they always report `0` no matter how many
rows the executed statement touched. The single-item paths (`Block`,
`StorageModel`, `Metadata`) return the rows-affected count of `execute`:
`0` or `1` for the `ON CONFLICT DO NOTHING` statements depending on whether
the row conflicts, and always `1` for the storage `DO UPDATE` statement. -/
theorem insert_return_values (btbl : List BlockRow) (r : BlockRow) (rs : List BlockRow)
    (stbl : List StorageRow) (s : StorageRow) (ss : List StorageRow)
    (mtbl : List MetadataRow) (m : MetadataRow) :
    (batchBlockInsert btbl rs).2 = 0 ∧
    (vecStorageInsert stbl ss).2 = 0 ∧
    (blockInsert btbl r).2 = (if btbl.any (fun x => x.hash == r.hash) then 0 else 1) ∧
    (storageInsert stbl s).2 = 1 ∧
    (metadataInsert mtbl m).2 =
      (if mtbl.any (fun x => x.version == m.version) then 0 else 1) := by
  refine ⟨rfl, rfl, ?_, ?_, ?_⟩
  · by_cases h : btbl.any (fun x => x.hash == r.hash) = true <;>
      simp [blockInsert, insertBlockRow, h]
  · by_cases h : stbl.any (fun x => storageConflict x s) = true <;>
      simp [storageInsert, insertStorageRow, h]
  · by_cases h : mtbl.any (fun x => x.version == m.version) = true <;>
      simp [metadataInsert, insertMetadataRow, h]

end Archive
